/-
  Verification of the led_spot animation core.

  Shallow embedding of the repository's C++ sources:
  * ColorSpace.cpp  (color conversion math, LCH vector operators)
  * Easing.cpp      (the ten easing curves)
  * Spotlight.cpp   (the non-blocking animation state machine)

  Modelling conventions:
  * C++ `float` arithmetic is embedded as exact arithmetic: rational (ℚ)
    wherever the source computes with rational operations only, and real (ℝ)
    where transcendental functions (cos, sin, sqrt, pow, log) appear.
  * `uint8_t` channel values are ℕ.  `static_cast<uint8_t>(x)` on a float is
    truncation toward zero, modelled as `(⌊x⌋).toNat`; this matches C++ for
    x ∈ (-1, 256) (outside that range the C++ cast is undefined behaviour).
  * `millis()` timestamps are ℕ (milliseconds); `now - start` on
    `unsigned long` is modelled by truncated ℕ subtraction (we only consider
    monotone clocks, now ≥ start).
  * Arduino `random(lo, hi)` (a value in [lo, hi)) is modelled by an oracle:
    the caller supplies natural numbers that are reduced into the range.
-/
import Mathlib
set_option maxHeartbeats 1000000
set_option maxRecDepth 8000



namespace ColorSpace

/-- Mirrors `std::max(a, b)` on floats. -/
def qmax (a b : ℚ) : ℚ := if a ≤ b then b else a

/-- Mirrors `std::min(a, b)` on floats. -/
def qmin (a b : ℚ) : ℚ := if b ≤ a then b else a

/-- Mirrors `std::abs` on floats. -/
def qabs (a : ℚ) : ℚ := if a < 0 then -a else a

/-- Truncation toward zero, the rounding used by C `fmod`. -/
def qtrunc (x : ℚ) : ℤ := if x < 0 then -(⌊-x⌋) else ⌊x⌋

/-- C `fmod(x, y) = x - y * trunc(x / y)` (sign follows `x`).
    The source never calls it with `y = 0` on a reachable path we model;
    ℚ division by zero yields 0, so `fmodQ x 0 = x`. -/
def fmodQ (x y : ℚ) : ℚ := x - y * (qtrunc (x / y) : ℚ)

/-- `static_cast<uint8_t>(x)` for a float `x`: truncation toward zero,
    modelled totally by `⌊x⌋.toNat` (agrees with C++ on (-1, 256)). -/
def toByte (x : ℚ) : ℕ := (⌊x⌋).toNat

/-- `struct RGB { uint8_t r, g, b; }`. -/
structure RGB where
  r : ℕ
  g : ℕ
  b : ℕ
deriving DecidableEq

/-- `struct HSL { float h, s, l; }`. -/
structure HSL where
  h : ℚ
  s : ℚ
  l : ℚ
deriving DecidableEq

/-- `struct LCH { float l, c, h; }`. -/
structure LCH where
  l : ℚ
  c : ℚ
  h : ℚ
deriving DecidableEq

/-- `LCH operator+(const LCH3& a, const LCH& b)`: componentwise sum. -/
instance : Add LCH := ⟨fun a b => ⟨a.l + b.l, a.c + b.c, a.h + b.h⟩⟩

/-- `LCH operator-(const LCH& a, const LCH& b)`: componentwise difference. -/
instance : Sub LCH := ⟨fun a b => ⟨a.l - b.l, a.c - b.c, a.h - b.h⟩⟩

/-- `LCH operator*(const LCH& a, float scalar)`: componentwise scaling. -/
instance : HMul LCH ℚ LCH := ⟨fun a k => ⟨a.l * k, a.c * k, a.h * k⟩⟩

/-- The two leading corrections of the `hue2rgb` lambda inside `hslToRgb`:
    `if (t < 0) t += 1; if (t > 1) t -= 1;` (sequential, on the same `t`). -/
def wrapT (t0 : ℚ) : ℚ :=
  let t1 := if t0 < 0 then t0 + 1 else t0
  if 1 < t1 then t1 - 1 else t1

/-- The branch chain of the `hue2rgb` lambda, after the wrap corrections. -/
def hue2rgbAt (p q t : ℚ) : ℚ :=
  if t < 1/6 then p + (q - p) * 6 * t
  else if t < 1/2 then q
  else if t < 2/3 then p + (q - p) * (2/3 - t) * 6
  else p

/-- The `hue2rgb` lambda inside `hslToRgb`. -/
def hue2rgb (p q t0 : ℚ) : ℚ := hue2rgbAt p q (wrapT t0)

/-- `RGB hslToRgb(const HSL& hsl)`. -/
def hslToRgb (hsl : HSL) : RGB :=
  if hsl.s = 0 then
    -- achromatic: r = g = b = l
    ⟨toByte (hsl.l * 255), toByte (hsl.l * 255), toByte (hsl.l * 255)⟩
  else
    let q := if hsl.l < 1/2 then hsl.l * (1 + hsl.s) else hsl.l + hsl.s - hsl.l * hsl.s
    let p := 2 * hsl.l - q
    ⟨toByte (hue2rgb p q (hsl.h / 360 + 1/3) * 255),
     toByte (hue2rgb p q (hsl.h / 360) * 255),
     toByte (hue2rgb p q (hsl.h / 360 - 1/3) * 255)⟩

/-- `void rgbToHsv(const RGB& rgb, float& h, float& s, float& v)`,
    returning the out-parameters as a triple (h, s, v).
    Note: for achromatic inputs with max ≠ 0 the source divides by
    `delta = 0` (NaN in float); ℚ division by zero yields 0, so the model
    returns hue 0 there. -/
def rgbToHsv (rgb : RGB) : ℚ × ℚ × ℚ :=
  let rf := (rgb.r : ℚ) / 255
  let gf := (rgb.g : ℚ) / 255
  let bf := (rgb.b : ℚ) / 255
  let maxc := qmax rf (qmax gf bf)
  let minc := qmin rf (qmin gf bf)
  let delta := maxc - minc
  if maxc = 0 then (0, 0, 0)
  else
    let s := delta / maxc
    let h0 := if maxc = rf then fmodQ ((gf - bf) / delta) 6
              else if maxc = gf then (bf - rf) / delta + 2
              else (rf - gf) / delta + 4
    let h1 := h0 * 60
    let h := if h1 < 0 then h1 + 360 else h1
    (h, s, maxc)

/-- `RGB hsvToRgb(float h, float s, float v)`. -/
def hsvToRgb (h s v : ℚ) : RGB :=
  let c := v * s
  let hp := fmodQ (h / 60) 6
  let x := c * (1 - qabs (fmodQ hp 2 - 1))
  let m := v - c
  let rgbf : ℚ × ℚ × ℚ :=
    if 0 ≤ hp ∧ hp < 1 then (c, x, 0)
    else if 1 ≤ hp ∧ hp < 2 then (x, c, 0)
    else if 2 ≤ hp ∧ hp < 3 then (0, c, x)
    else if 3 ≤ hp ∧ hp < 4 then (0, x, c)
    else if 4 ≤ hp ∧ hp < 5 then (x, 0, c)
    else if 5 ≤ hp ∧ hp < 6 then (c, 0, x)
    else (0, 0, 0)
  ⟨toByte ((rgbf.1 + m) * 255), toByte ((rgbf.2.1 + m) * 255), toByte ((rgbf.2.2 + m) * 255)⟩

/-- `LCH rgbToLch(const RGB& rgb)` (the simplified, HSL-derived mapping). -/
def rgbToLch (rgb : RGB) : LCH :=
  let rf := (rgb.r : ℚ) / 255
  let gf := (rgb.g : ℚ) / 255
  let bf := (rgb.b : ℚ) / 255
  let maxv := qmax rf (qmax gf bf)
  let minv := qmin rf (qmin gf bf)
  let l := (maxv + minv) / 2
  if maxv = minv then ⟨l, 0, 0⟩
  else
    let delta := maxv - minv
    let c := if 1/2 < l then delta / (2 - maxv - minv) else delta / (maxv + minv)
    let h0 := if maxv = rf then fmodQ ((gf - bf) / delta + (if gf < bf then 6 else 0)) 6
              else if maxv = gf then (bf - rf) / delta + 2
              else (rf - gf) / delta + 4
    let h1 := h0 * 60
    let h := if h1 < 0 then h1 + 360 else h1
    ⟨l, c, h⟩

/-- `RGB lchToRgb(const LCH& lch)`: reconstructs an HSL saturation from the
    stored `c` and `l`, then delegates to `hslToRgb`. -/
def lchToRgb (lch : LCH) : RGB :=
  let s := if lch.l < 1/2 then (if lch.c = 0 then 0 else lch.c / (2 * lch.l))
           else (if lch.c = 0 then 0 else lch.c / (2 - 2 * lch.l))
  hslToRgb ⟨lch.h, s, lch.l⟩

/-
  Real-valued mirror of the float pipeline.

  Inside the animation engine, eased progress values flow through
  transcendental easing curves, so the interpolated LCH triple and the
  conversion back to RGB are real-valued.  The functions below are the same
  source functions (`hslToRgb`, `lchToRgb`, the LCH operators) on ℝ; the
  cast lemmas that follow prove they agree with the exact ℚ versions on
  rational inputs, which lets concrete runs be evaluated by `decide`.
-/

/-- `static_cast<uint8_t>` on a real-valued float expression. -/
noncomputable def toByteR (x : ℝ) : ℕ := (⌊x⌋).toNat

/-- Real-valued `wrapT`. -/
noncomputable def wrapTR (t0 : ℝ) : ℝ :=
  let t1 := if t0 < 0 then t0 + 1 else t0
  if 1 < t1 then t1 - 1 else t1

/-- Real-valued `hue2rgbAt`. -/
noncomputable def hue2rgbAtR (p q t : ℝ) : ℝ :=
  if t < 1/6 then p + (q - p) * 6 * t
  else if t < 1/2 then q
  else if t < 2/3 then p + (q - p) * (2/3 - t) * 6
  else p

/-- Real-valued `hue2rgb`. -/
noncomputable def hue2rgbR (p q t0 : ℝ) : ℝ := hue2rgbAtR p q (wrapTR t0)

/-- Real-valued `hslToRgb` (arguments h, s, l of the HSL struct). -/
noncomputable def hslToRgbR (h s l : ℝ) : RGB :=
  if s = 0 then
    ⟨toByteR (l * 255), toByteR (l * 255), toByteR (l * 255)⟩
  else
    let q := if l < 1/2 then l * (1 + s) else l + s - l * s
    let p := 2 * l - q
    ⟨toByteR (hue2rgbR p q (h / 360 + 1/3) * 255),
     toByteR (hue2rgbR p q (h / 360) * 255),
     toByteR (hue2rgbR p q (h / 360 - 1/3) * 255)⟩

/-- Real-valued LCH triple (the float LCH struct during interpolation). -/
structure LCHr where
  l : ℝ
  c : ℝ
  h : ℝ

/-- Inclusion of an exactly-represented LCH value into the real pipeline. -/
noncomputable def LCH.toR (x : LCH) : LCHr := ⟨(x.l : ℝ), (x.c : ℝ), (x.h : ℝ)⟩

/-- `start + (end - start) * easedT` via the overloaded LCH operators,
    componentwise on l, c, h. -/
noncomputable def LCHr.blend (a b : LCHr) (t : ℝ) : LCHr :=
  ⟨a.l + (b.l - a.l) * t, a.c + (b.c - a.c) * t, a.h + (b.h - a.h) * t⟩

/-- Real-valued `lchToRgb`. -/
noncomputable def lchToRgbR (x : LCHr) : RGB :=
  let s := if x.l < 1/2 then (if x.c = 0 then (0:ℝ) else x.c / (2 * x.l))
           else (if x.c = 0 then (0:ℝ) else x.c / (2 - 2 * x.l))
  hslToRgbR x.h s x.l

/-- `RGB kelvinToRgb(float kelvin)`: black-body fit with per-channel
    clamps (`std::min` then `std::max` in the source equals `max 0 (min 255 ·)`).
    `pow` and `log` force this definition onto ℝ. -/
noncomputable def kelvinToRgb (kelvin : ℚ) : RGB :=
  let temp : ℝ := (kelvin : ℝ) / 100
  let red : ℝ :=
    if temp ≤ 66 then 255
    else max 0 (min 255 (329.698727446 * (temp - 60) ^ (-0.1332047592 : ℝ)))
  let green : ℝ :=
    if temp ≤ 66 then max 0 (min 255 (99.4708025861 * Real.log temp - 161.1195681661))
    else max 0 (min 255 (288.1221695283 * (temp - 60) ^ (-0.0755148492 : ℝ)))
  let blue : ℝ :=
    if 66 ≤ temp then 255
    else if temp ≤ 19 then 0
    else max 0 (min 255 (138.5177312231 * Real.log (temp - 10) - 305.0447927307))
  ⟨toByteR red, toByteR green, toByteR blue⟩

end ColorSpace

namespace Easing

/-- `enum EasingFunction` from Easing.h, in declaration order. -/
inductive EasingFunction where
  | Linear
  | SineInOut
  | QuadInOut
  | CubicInOut
  | QuartInOut
  | QuintInOut
  | CircInOut
  | ElasticInOut
  | BackInOut
  | BounceInOut
deriving DecidableEq

/-- `float easeLinear(float t)`. -/
def easeLinear (t : ℝ) : ℝ := t

/-- `float easeSineInOut(float t)`; `PI` is the Arduino π constant. -/
noncomputable def easeSineInOut (t : ℝ) : ℝ := -(Real.cos (Real.pi * t) - 1) / 2

/-- `float easeQuadInOut(float t)`. -/
noncomputable def easeQuadInOut (t : ℝ) : ℝ :=
  if t < 0.5 then 2 * t * t else -1 + (4 - 2 * t) * t

/-- `float easeCubicInOut(float t)`. -/
noncomputable def easeCubicInOut (t : ℝ) : ℝ :=
  if t < 0.5 then 4 * t * t * t
  else (t - 1) * (2 * t - 2) * (2 * t - 2) + 1

/-- `float easeQuartInOut(float t)`. -/
noncomputable def easeQuartInOut (t : ℝ) : ℝ :=
  let f := t * 2
  if f < 1 then 0.5 * f * f * f * f
  else
    let f2 := f - 2;
    -0.5 * (f2 * f2 * f2 * f2 - 2)

/-- `float easeQuintInOut(float t)`. -/
noncomputable def easeQuintInOut (t : ℝ) : ℝ :=
  let f := t * 2
  if f < 1 then 0.5 * f * f * f * f * f
  else
    let f2 := f - 2;
    0.5 * (f2 * f2 * f2 * f2 * f2 + 2)

/-- `float easeCircInOut(float t)`. -/
noncomputable def easeCircInOut (t : ℝ) : ℝ :=
  let f := t * 2
  if f < 1 then -0.5 * (Real.sqrt (1 - f * f) - 1)
  else
    let f2 := f - 2;
    0.5 * (Real.sqrt (1 - f2 * f2) + 1)

/-- `float easeElasticInOut(float t)`; the guard `t == 0.0 || t == 1.0`
    returns `t` unchanged. -/
noncomputable def easeElasticInOut (t : ℝ) : ℝ :=
  if t = 0 ∨ t = 1 then t
  else
    let p : ℝ := 0.3 * 1.5
    let s : ℝ := p / 4
    let f : ℝ := t * 2 - 1
    if f < 0 then -0.5 * ((2:ℝ) ^ (10 * f) * Real.sin ((f - s) * (2 * Real.pi) / p))
    else
      let f2 := f - 1;
      (2:ℝ) ^ (-10 * f2) * Real.sin ((f2 - s) * (2 * Real.pi) / p) * 0.5 + 1

/-- `float easeBackInOut(float t)`. -/
noncomputable def easeBackInOut (t : ℝ) : ℝ :=
  let s : ℝ := 1.70158 * 1.525
  let f := t * 2
  if f < 1 then 0.5 * (f * f * ((s + 1) * f - s))
  else
    let f2 := f - 2;
    0.5 * (f2 * f2 * ((s + 1) * f2 + s) + 2)

/-- `float easeBounceOut(float t)` (the `t -=` updates become lets). -/
noncomputable def easeBounceOut (t : ℝ) : ℝ :=
  if t < 1 / 2.75 then 7.5625 * t * t
  else if t < 2 / 2.75 then
    let t2 := t - 1.5 / 2.75;
    7.5625 * t2 * t2 + 0.75
  else if t < 2.5 / 2.75 then
    let t2 := t - 2.25 / 2.75;
    7.5625 * t2 * t2 + 0.9375
  else
    let t2 := t - 2.625 / 2.75;
    7.5625 * t2 * t2 + 0.984375

/-- `float easeBounceIn(float t)`. -/
noncomputable def easeBounceIn (t : ℝ) : ℝ := 1 - easeBounceOut (1 - t)

/-- `float easeBounceInOut(float t)`. -/
noncomputable def easeBounceInOut (t : ℝ) : ℝ :=
  if t < 0.5 then easeBounceIn (t * 2) * 0.5
  else easeBounceOut (t * 2 - 1) * 0.5 + 0.5

/-- `float getEasedValue(EasingFunction func, float t)`: total dispatch over
    the enum (the C++ `default:` case, falling back to `easeLinear`, is
    unreachable for a well-typed enum value). -/
noncomputable def getEasedValue (func : EasingFunction) (t : ℝ) : ℝ :=
  match func with
  | .Linear => easeLinear t
  | .SineInOut => easeSineInOut t
  | .QuadInOut => easeQuadInOut t
  | .CubicInOut => easeCubicInOut t
  | .QuartInOut => easeQuartInOut t
  | .QuintInOut => easeQuintInOut t
  | .CircInOut => easeCircInOut t
  | .ElasticInOut => easeElasticInOut t
  | .BackInOut => easeBackInOut t
  | .BounceInOut => easeBounceInOut t

end Easing

namespace Spotlight

open ColorSpace Easing

/-- `enum class RotationDirection` from Spotlight.h. -/
inductive RotationDirection where
  | Clockwise
  | CounterClockwise
deriving DecidableEq

/-- `Constants::MAX_COLORS`. -/
def MAX_COLORS : ℕ := 32

/-- The private fields of the `Spotlight` class (pin numbers dropped: they
    only feed the hardware sink).  The fixed 32-slot cycle array is modelled
    by the list of its populated prefix (`colorCycleCount` entries written by
    the latest `enableColorCycleMode`); reads use `getD`, and the in-bounds
    claim C10 shows the default is never taken. -/
structure State where
  currentRGB : RGB
  animationStartTime : ℕ
  isAnimating : Bool
  currentHue : ℚ
  startHue : ℚ
  saturation : ℚ
  value : ℚ
  rotationPeriod : ℚ
  rotationDirection : RotationDirection
  colorCycleList : List LCH
  colorCycleCount : ℕ
  currentColorIndex : ℕ
  startLCH : LCH
  transitionDuration : ℚ
  currentEasing : EasingFunction
  isRandom : Bool
  isTransitioning : Bool
  transitionStartTime : ℕ
  fixedTransitionDuration : ℚ
  fixedTransitionEasing : EasingFunction
  fixedStartLCH : LCH
  fixedEndLCH : LCH
deriving DecidableEq

/-- The constructor's member initializers.  `_currentRGB`, the timing
    anchors, `_startLCH`, `_fixedStartLCH` and `_fixedEndLCH` are left
    uninitialized by the C++ constructor; the model zero-fills them (none of
    them is read before being written on the traces we verify). -/
def initState : State where
  currentRGB := ⟨0, 0, 0⟩
  animationStartTime := 0
  isAnimating := false
  currentHue := 0
  startHue := 0
  saturation := 1
  value := 1
  rotationPeriod := 0
  rotationDirection := RotationDirection.Clockwise
  colorCycleList := []
  colorCycleCount := 0
  currentColorIndex := 0
  startLCH := ⟨0, 0, 0⟩
  transitionDuration := 2
  currentEasing := EasingFunction.Linear
  isRandom := false
  isTransitioning := false
  transitionStartTime := 0
  fixedTransitionDuration := 1/5
  fixedTransitionEasing := EasingFunction.CubicInOut
  fixedStartLCH := ⟨0, 0, 0⟩
  fixedEndLCH := ⟨0, 0, 0⟩

/-- `void Spotlight::stopAllAnimations()`. -/
def stopAllAnimations (s : State) : State :=
  { s with isAnimating := false, isTransitioning := false,
           rotationPeriod := 0, colorCycleCount := 0 }

/-- Progress fraction of the fixed-color transition at time `now`:
    `elapsedTime / (_fixedTransitionDuration * 1000.0)`. -/
def fixedProgress (s : State) (now : ℕ) : ℚ :=
  ((now - s.transitionStartTime : ℕ) : ℚ) / (s.fixedTransitionDuration * 1000)

/-- Progress fraction of the current cycle leg at time `now`:
    `elapsedTime / (_transitionDuration * 1000.0)`. -/
def cycleProgress (s : State) (now : ℕ) : ℚ :=
  ((now - s.animationStartTime : ℕ) : ℚ) / (s.transitionDuration * 1000)

/-- The wheel hue computed by `update` at time `now`:
    `fmod(_startHue + hueDelta, 360)` with a `+360` correction when
    negative; `hueDelta = elapsed / (period*1000) * 360`, negated for
    counter-clockwise rotation. -/
def wheelHueAt (s : State) (now : ℕ) : ℚ :=
  let hueDelta0 := ((now - s.animationStartTime : ℕ) : ℚ) / (s.rotationPeriod * 1000) * 360
  let hueDelta := if s.rotationDirection = RotationDirection.CounterClockwise
                  then -hueDelta0 else hueDelta0
  let hue0 := fmodQ (s.startHue + hueDelta) 360
  if hue0 < 0 then hue0 + 360 else hue0

/-- The target of the current cycle leg: `_colorCycleList[_currentColorIndex]`. -/
def cycleTarget (s : State) : LCH :=
  s.colorCycleList.getD s.currentColorIndex ⟨0, 0, 0⟩

/-- Denotation of the rejection loop
    `do { newIndex = random(0, count); } while (newIndex == current);`
    used by random-order cycling: the oracle `rng` selects one of the
    `count - 1` admissible indices (a value below `count` and distinct from
    `current`); every such index is realized by some oracle value. -/
def drawNewIndex (rng count current : ℕ) : ℕ :=
  let k := rng % (count - 1)
  if k < current then k else k + 1

/-- `void Spotlight::update()`, with the `millis()` read passed as `now` and
    the random draw for the cycle-advance as `rng`.  Returns the new state
    and the color written to the LEDs by `writeLeds` (`none` when the call
    writes nothing).  `writeLeds` also stores its argument in `_currentRGB`,
    which the returned state reflects.  In the source the fixed-transition
    branch computes `easedT` before testing `t >= 1.0`; the eased value is
    unused in the completion branch, so the model computes it only where it
    is used. -/
noncomputable def update (s : State) (now : ℕ) (rng : ℕ) : State × Option RGB :=
  if s.isTransitioning then
    let t := fixedProgress s now
    if 1 ≤ t then
      -- Transition is complete, jump to the final color and stop.
      let c := lchToRgb s.fixedEndLCH
      ({ s with currentRGB := c, isTransitioning := false }, some c)
    else
      -- Blending is still in progress.
      let easedT := getEasedValue s.fixedTransitionEasing (t : ℝ)
      let c := lchToRgbR (LCHr.blend s.fixedStartLCH.toR s.fixedEndLCH.toR easedT)
      ({ s with currentRGB := c }, some c)
  else if s.isAnimating then
    if 0 < s.rotationPeriod then
      -- Color Wheel Mode.
      let hue := wheelHueAt s now
      let c := hsvToRgb hue s.saturation s.value
      ({ s with currentHue := hue, currentRGB := c }, some c)
    else if 0 < s.colorCycleCount then
      if s.transitionDuration * 1000 ≤ ((now - s.animationStartTime : ℕ) : ℚ) then
        -- Transition is complete, move to the next color (no LED write).
        let newIdx := if 1 < s.colorCycleCount ∧ s.isRandom
                      then drawNewIndex rng s.colorCycleCount s.currentColorIndex
                      else (s.currentColorIndex + 1) % s.colorCycleCount
        ({ s with startLCH := cycleTarget s, currentColorIndex := newIdx,
                  animationStartTime := now }, none)
      else
        -- Blending is still in progress.
        let t := cycleProgress s now
        let easedT := getEasedValue s.currentEasing (t : ℝ)
        let c := lchToRgbR (LCHr.blend s.startLCH.toR (cycleTarget s).toR easedT)
        ({ s with currentRGB := c }, some c)
    else (s, none)
  else (s, none)

/-- `ColorSpace::RGB Spotlight::getCurrentRGB()` with the `millis()` reads
    passed as `now`. -/
noncomputable def getCurrentRGB (s : State) (now : ℕ) : RGB :=
  if s.isTransitioning then
    let t := min 1 (fixedProgress s now)  -- Clamp to prevent overshooting
    let easedT := getEasedValue s.fixedTransitionEasing (t : ℝ)
    lchToRgbR (LCHr.blend s.fixedStartLCH.toR s.fixedEndLCH.toR easedT)
  else if 0 < s.rotationPeriod then
    hsvToRgb s.currentHue s.saturation s.value
  else if 0 < s.colorCycleCount then
    let t := min 1 (cycleProgress s now)
    let easedT := getEasedValue s.currentEasing (t : ℝ)
    lchToRgbR (LCHr.blend s.startLCH.toR (cycleTarget s).toR easedT)
  else s.currentRGB

/-- `void Spotlight::setRGB(uint8_t r, uint8_t g, uint8_t b)`: samples the
    currently displayed color BEFORE cancelling the running mode, then
    starts the fixed transition at `now`. -/
noncomputable def setRGB (s : State) (r g b : ℕ) (now : ℕ) : State :=
  let startColor := getCurrentRGB s now
  let s1 := stopAllAnimations s
  { s1 with fixedStartLCH := rgbToLch startColor,
            fixedEndLCH := rgbToLch ⟨r, g, b⟩,
            isTransitioning := true,
            transitionStartTime := now }

/-- `void Spotlight::setColorTemperature(float kelvin, float brightness)`:
    immediate write, no animation. -/
noncomputable def setColorTemperature (s : State) (kelvin brightness : ℚ) : State :=
  let s1 := stopAllAnimations s
  let rgb := kelvinToRgb kelvin
  let rgb2 : RGB := ⟨toByte ((rgb.r : ℚ) * brightness),
                     toByte ((rgb.g : ℚ) * brightness),
                     toByte ((rgb.b : ℚ) * brightness)⟩
  { s1 with currentRGB := rgb2 }

/-- `void Spotlight::enableColorWheelMode(float periodSeconds,
    RotationDirection direction)`.  Note the source samples the current
    color AFTER `stopAllAnimations()` (so it reads `_currentRGB`), stores
    only the hue `h`, and DISCARDS the sampled saturation and value:
    `_saturation` and `_value` keep their previous contents (1.0 from the
    constructor, never written elsewhere). -/
noncomputable def enableColorWheelMode (s : State) (periodSeconds : ℚ)
    (direction : RotationDirection) (now : ℕ) : State :=
  let s1 := stopAllAnimations s
  let startColor := getCurrentRGB s1 now
  let hsv := rgbToHsv startColor
  { s1 with startHue := hsv.1, rotationPeriod := periodSeconds,
            rotationDirection := direction, isAnimating := true,
            animationStartTime := now }

/-- One swap of the manual shuffle: `temp = list[i]; list[i] = list[j];
    list[j] = temp;`. -/
def swapL (l : List LCH) (i j : ℕ) : List LCH :=
  (l.set i (l.getD j ⟨0, 0, 0⟩)).set j (l.getD i ⟨0, 0, 0⟩)

/-- The manual Fisher-Yates pass of `enableColorCycleMode`:
    `for i in [0, count-1): j = random(i, count); if (i != j) swap;`.
    `random(i, count)` is modelled as `i + rng i % (count - i)`, a value in
    `[i, count)`. -/
def shuffleFY (l : List LCH) (rng : ℕ → ℕ) : List LCH :=
  (List.range (l.length - 1)).foldl
    (fun acc i =>
      let j := i + rng i % (l.length - i)
      if i = j then acc else swapL acc i j) l

/-- `void Spotlight::enableColorCycleMode(const ColorSpace::RGB* colors,
    size_t count, bool isRandom)`.  The `(colors, count)` pointer pair is
    modelled as the list `colors` (so `count = colors.length`); the source
    caps the stored count at `MAX_COLORS` and converts that prefix to LCH.
    With a zero count it returns before arming the animation. -/
def enableColorCycleMode (s : State) (colors : List RGB) (isRandom : Bool)
    (now : ℕ) (rng : ℕ → ℕ) : State :=
  let s1 := stopAllAnimations s
  let count := min colors.length MAX_COLORS
  let list0 := (colors.take MAX_COLORS).map rgbToLch
  let s2 := { s1 with colorCycleCount := count, isRandom := isRandom,
                      colorCycleList := list0 }
  if count = 0 then s2  -- Nothing to animate.
  else
    let list1 := if isRandom then shuffleFY list0 rng else list0
    { s2 with colorCycleList := list1,
              currentColorIndex := 0,
              startLCH := list1.getD 0 ⟨0, 0, 0⟩,
              isAnimating := true,
              animationStartTime := now }

/-- `void Spotlight::setCycleDuration(float duration)`. -/
def setCycleDuration (s : State) (duration : ℚ) : State :=
  { s with transitionDuration := duration }

/-- `void Spotlight::setCycleEasing(Easing::EasingFunction easing)`. -/
def setCycleEasing (s : State) (easing : EasingFunction) : State :=
  { s with currentEasing := easing }

/-- `void Spotlight::setTransitionDuration(float duration)`. -/
def setTransitionDuration (s : State) (duration : ℚ) : State :=
  { s with fixedTransitionDuration := duration }

/-- `void Spotlight::setTransitionEasing(Easing::EasingFunction easing)`. -/
def setTransitionEasing (s : State) (easing : EasingFunction) : State :=
  { s with fixedTransitionEasing := easing }

/-- Clamping of a progress value to [0,1], as asserted by the spec
    ("Interpolation progress t is clamped to [0,1] before being passed to
    the easing evaluator").  Written with explicit branches so concrete
    instances evaluate by `decide`. -/
def clamp01 (t : ℚ) : ℚ := if t < 0 then 0 else if 1 < t then 1 else t

/-- The spec's mutual-exclusion invariant: at most one of
    Transitioning-to-Fixed (`_isTransitioning`), Wheel (`_rotationPeriod > 0`)
    and Cycle (`_colorCycleCount > 0`) is active. -/
def ModeExclusive (s : State) : Prop :=
  (s.isTransitioning = true → s.rotationPeriod ≤ 0 ∧ s.colorCycleCount = 0) ∧
  (0 < s.rotationPeriod → s.isTransitioning = false ∧ s.colorCycleCount = 0) ∧
  (0 < s.colorCycleCount → s.isTransitioning = false ∧ s.rotationPeriod ≤ 0)

instance (s : State) : Decidable (ModeExclusive s) := by
  unfold ModeExclusive
  infer_instance

/-- The cycle-index safety invariant: the stored count never exceeds the
    populated list, and while a cycle is active the current index is below
    the count. -/
def CycleIndexInv (s : State) : Prop :=
  s.colorCycleCount ≤ s.colorCycleList.length ∧
  (0 < s.colorCycleCount → s.currentColorIndex < s.colorCycleCount)

instance (s : State) : Decidable (CycleIndexInv s) := by
  unfold CycleIndexInv
  infer_instance

/-- A 3-color, non-random cycle (red, green, blue) with duration 1 s,
    enabled at time 0 on a fresh engine (claim C5's configuration). -/
def sCyc0 : State :=
  setCycleDuration
    (enableColorCycleMode initState [⟨255, 0, 0⟩, ⟨0, 255, 0⟩, ⟨0, 0, 255⟩] false 0 (fun _ => 0)) 1

/-- `sCyc0` after its first emitting poll (the LEDs hold color[0]). -/
def sCyc1 : State := { sCyc0 with currentRGB := ⟨255, 0, 0⟩ }

/-- `sCyc1` after the commit poll at t = 1 s: index advanced to 1, timing
    anchor reset, leg start set to color[0]. -/
def sCyc2 : State :=
  { sCyc1 with startLCH := rgbToLch ⟨255, 0, 0⟩, currentColorIndex := 1,
               animationStartTime := 1000 }

/-- A fixed transition configured with a NEGATIVE duration: the engine is
    displaying gray 127, `setRGB(255,255,255)` starts a transition to white
    at time 0, then the transition duration is set to -1 s and the easing to
    Linear (claims C1 and C2). -/
noncomputable def sNeg : State :=
  setTransitionDuration
    (setTransitionEasing
      (setRGB { initState with currentRGB := ⟨127, 127, 127⟩ } 255 255 255 0)
      EasingFunction.Linear)
    (-1)

/-- Wheel mode entered at time 0 while the engine displays (201, 99, 48)
    (a color with HSV saturation 51/67 and value 67/85, both different from
    1): 10-second period, clockwise (claims C4 and C7). -/
noncomputable def sWheel : State :=
  enableColorWheelMode { initState with currentRGB := ⟨201, 99, 48⟩ } 10
    RotationDirection.Clockwise 0

/-- A 2-color non-random cycle whose duration is then set to 0 (claim C2's
    witness for the cycle branch). -/
def sC2 : State :=
  setCycleDuration
    (enableColorCycleMode initState [⟨255, 0, 0⟩, ⟨0, 255, 0⟩] false 0 (fun _ => 0)) 0

/-- A fresh engine with a fixed transition armed (the constructor's defaults:
    duration 0.2 s, CubicInOut easing); claim C1's witness state. -/
def c1WitState : State := { initState with isTransitioning := true }

end Spotlight

namespace ColorSpace

theorem LCH.add_def (a b : LCH) : a + b = ⟨a.l + b.l, a.c + b.c, a.h + b.h⟩ := rfl

theorem LCH.sub_def (a b : LCH) : a - b = ⟨a.l - b.l, a.c - b.c, a.h - b.h⟩ := rfl

theorem LCH.mul_def (a : LCH) (k : ℚ) : a * k = ⟨a.l * k, a.c * k, a.h * k⟩ := rfl

/- Cast lemmas: the real pipeline agrees with the exact ℚ pipeline on
   rational inputs. -/

theorem rlt_of_qlt {a b : ℚ} {c : ℝ} (hb : ((b:ℚ):ℝ) = c) (h : a < b) : (a:ℝ) < c := by
  subst hb
  exact_mod_cast h

theorem rnlt_of_qnlt {a b : ℚ} {c : ℝ} (hb : ((b:ℚ):ℝ) = c) (h : ¬ a < b) : ¬ (a:ℝ) < c := by
  subst hb
  exact_mod_cast h

theorem req_of_qeq {a b : ℚ} {c : ℝ} (hb : ((b:ℚ):ℝ) = c) (h : a = b) : (a:ℝ) = c := by
  subst hb
  exact_mod_cast h

theorem rne_of_qne {a b : ℚ} {c : ℝ} (hb : ((b:ℚ):ℝ) = c) (h : ¬ a = b) : ¬ (a:ℝ) = c := by
  subst hb
  exact_mod_cast h

theorem toByteR_cast (q : ℚ) : toByteR (q : ℝ) = toByte q := by
  simp [toByteR, toByte, Rat.floor_cast]

theorem wrapTR_cast (t : ℚ) : wrapTR (t : ℝ) = ((wrapT t : ℚ) : ℝ) := by
  simp only [wrapTR, wrapT]
  by_cases h0 : t < 0
  · rw [if_pos (rlt_of_qlt (by push_cast; ring) h0), if_pos h0]
    by_cases h1 : (1:ℚ) < t + 1
    · rw [if_pos (by exact_mod_cast h1), if_pos h1]
      push_cast
      ring
    · rw [if_neg (by exact_mod_cast h1), if_neg h1]
      push_cast
      ring
  · rw [if_neg (rnlt_of_qnlt (by push_cast; ring) h0), if_neg h0]
    by_cases h1 : (1:ℚ) < t
    · rw [if_pos (by exact_mod_cast h1), if_pos h1]
      push_cast
      ring
    · rw [if_neg (by exact_mod_cast h1), if_neg h1]

theorem hue2rgbAtR_cast (p q t : ℚ) :
    hue2rgbAtR (p : ℝ) (q : ℝ) (t : ℝ) = ((hue2rgbAt p q t : ℚ) : ℝ) := by
  simp only [hue2rgbAtR, hue2rgbAt]
  by_cases h1 : t < 1/6
  · rw [if_pos (rlt_of_qlt (by push_cast; ring) h1), if_pos h1]
    push_cast
    ring
  · rw [if_neg (rnlt_of_qnlt (by push_cast; ring) h1), if_neg h1]
    by_cases h2 : t < 1/2
    · rw [if_pos (rlt_of_qlt (by push_cast; ring) h2), if_pos h2]
    · rw [if_neg (rnlt_of_qnlt (by push_cast; ring) h2), if_neg h2]
      by_cases h3 : t < 2/3
      · rw [if_pos (rlt_of_qlt (by push_cast; ring) h3), if_pos h3]
        push_cast
        ring
      · rw [if_neg (rnlt_of_qnlt (by push_cast; ring) h3), if_neg h3]

theorem hue2rgbR_cast (p q t : ℚ) :
    hue2rgbR (p : ℝ) (q : ℝ) (t : ℝ) = ((hue2rgb p q t : ℚ) : ℝ) := by
  rw [hue2rgbR, hue2rgb, wrapTR_cast, hue2rgbAtR_cast]

theorem hslToRgbR_cast (h s l : ℚ) :
    hslToRgbR (h : ℝ) (s : ℝ) (l : ℝ) = hslToRgb ⟨h, s, l⟩ := by
  simp only [hslToRgbR, hslToRgb]
  by_cases hs : s = 0
  · rw [if_pos (req_of_qeq (by push_cast; ring) hs), if_pos hs]
    have e : (l:ℝ) * 255 = ((l * 255 : ℚ) : ℝ) := by push_cast; ring
    rw [e, toByteR_cast]
  · rw [if_neg (rne_of_qne (by push_cast; ring) hs), if_neg hs]
    have e6 : ∀ x : ℚ, ((x:ℚ):ℝ) * 255 = ((x * 255 : ℚ) : ℝ) := by intro x; push_cast; ring
    by_cases hl : l < 1/2
    · rw [if_pos (rlt_of_qlt (by push_cast; ring) hl), if_pos hl]
      have e1 : (l:ℝ) * (1 + (s:ℝ)) = ((l * (1 + s) : ℚ) : ℝ) := by push_cast; ring
      have e2 : 2 * (l:ℝ) - ((l * (1 + s) : ℚ) : ℝ) = ((2 * l - l * (1 + s) : ℚ) : ℝ) := by
        push_cast; ring
      have e3 : (h:ℝ) / 360 + 1/3 = ((h / 360 + 1/3 : ℚ) : ℝ) := by push_cast; ring
      have e4 : (h:ℝ) / 360 = ((h / 360 : ℚ) : ℝ) := by push_cast; ring
      have e5 : (h:ℝ) / 360 - 1/3 = ((h / 360 - 1/3 : ℚ) : ℝ) := by push_cast; ring
      rw [e1, e2, e3, e5, e4, hue2rgbR_cast, hue2rgbR_cast, hue2rgbR_cast,
        e6, e6, e6, toByteR_cast, toByteR_cast, toByteR_cast]
    · rw [if_neg (rnlt_of_qnlt (by push_cast; ring) hl), if_neg hl]
      have e1 : (l:ℝ) + (s:ℝ) - (l:ℝ) * (s:ℝ) = ((l + s - l * s : ℚ) : ℝ) := by push_cast; ring
      have e2 : 2 * (l:ℝ) - ((l + s - l * s : ℚ) : ℝ) = ((2 * l - (l + s - l * s) : ℚ) : ℝ) := by
        push_cast; ring
      have e3 : (h:ℝ) / 360 + 1/3 = ((h / 360 + 1/3 : ℚ) : ℝ) := by push_cast; ring
      have e4 : (h:ℝ) / 360 = ((h / 360 : ℚ) : ℝ) := by push_cast; ring
      have e5 : (h:ℝ) / 360 - 1/3 = ((h / 360 - 1/3 : ℚ) : ℝ) := by push_cast; ring
      rw [e1, e2, e3, e5, e4, hue2rgbR_cast, hue2rgbR_cast, hue2rgbR_cast,
        e6, e6, e6, toByteR_cast, toByteR_cast, toByteR_cast]

theorem lchToRgbR_toR (x : LCH) : lchToRgbR x.toR = lchToRgb x := by
  simp only [lchToRgbR, lchToRgb, LCH.toR]
  by_cases hl : x.l < 1/2
  · rw [if_pos (rlt_of_qlt (by push_cast; ring) hl), if_pos hl]
    by_cases hc : x.c = 0
    · rw [if_pos (req_of_qeq (by push_cast; ring) hc), if_pos hc]
      have e0 : (0:ℝ) = ((0:ℚ):ℝ) := by norm_num
      rw [e0, hslToRgbR_cast]
    · rw [if_neg (rne_of_qne (by push_cast; ring) hc), if_neg hc]
      have e1 : ((x.c:ℚ):ℝ) / (2 * ((x.l:ℚ):ℝ)) = ((x.c / (2 * x.l) : ℚ) : ℝ) := by
        push_cast; ring
      rw [e1, hslToRgbR_cast]
  · rw [if_neg (rnlt_of_qnlt (by push_cast; ring) hl), if_neg hl]
    by_cases hc : x.c = 0
    · rw [if_pos (req_of_qeq (by push_cast; ring) hc), if_pos hc]
      have e0 : (0:ℝ) = ((0:ℚ):ℝ) := by norm_num
      rw [e0, hslToRgbR_cast]
    · rw [if_neg (rne_of_qne (by push_cast; ring) hc), if_neg hc]
      have e1 : ((x.c:ℚ):ℝ) / (2 - 2 * ((x.l:ℚ):ℝ)) = ((x.c / (2 - 2 * x.l) : ℚ) : ℝ) := by
        push_cast; ring
      rw [e1, hslToRgbR_cast]

theorem blend_toR_cast (a b : LCH) (t : ℚ) :
    LCHr.blend a.toR b.toR (t : ℝ) = (a + (b - a) * t).toR := by
  unfold LCHr.blend LCH.toR
  rw [LCH.sub_def, LCH.mul_def, LCH.add_def]
  refine congrArg₂ (fun x y => LCHr.mk x y.1 y.2) ?_ (congrArg₂ Prod.mk ?_ ?_) <;>
    (push_cast; ring)

/-- At eased progress exactly 1 the blend lands exactly on the target. -/
theorem blend_toR_one (a b : LCH) :
    LCHr.blend a.toR b.toR 1 = b.toR := by
  unfold LCHr.blend LCH.toR
  refine congrArg₂ (fun x y => LCHr.mk x y.1 y.2) ?_ (congrArg₂ Prod.mk ?_ ?_) <;> ring

end ColorSpace

namespace Easing

theorem easeBounceOut_one : easeBounceOut 1 = 1 := by
  unfold easeBounceOut
  rw [if_neg (by norm_num), if_neg (by norm_num), if_neg (by norm_num)]
  norm_num

/-- Every easing curve maps progress 0 to exactly 0. -/
theorem getEased_zero (func : EasingFunction) : getEasedValue func 0 = 0 := by
  cases func
  case Linear => simp [getEasedValue, easeLinear]
  case SineInOut => simp [getEasedValue, easeSineInOut]
  case QuadInOut =>
    unfold getEasedValue easeQuadInOut
    rw [if_pos (by norm_num)]
    norm_num
  case CubicInOut =>
    unfold getEasedValue easeCubicInOut
    rw [if_pos (by norm_num)]
    norm_num
  case QuartInOut =>
    unfold getEasedValue easeQuartInOut
    simp only []
    rw [if_pos (by norm_num)]
    norm_num
  case QuintInOut =>
    unfold getEasedValue easeQuintInOut
    simp only []
    rw [if_pos (by norm_num)]
    norm_num
  case CircInOut =>
    unfold getEasedValue easeCircInOut
    simp only []
    rw [if_pos (by norm_num)]
    norm_num
  case ElasticInOut =>
    unfold getEasedValue easeElasticInOut
    rw [if_pos (Or.inl rfl)]
  case BackInOut =>
    unfold getEasedValue easeBackInOut
    simp only []
    rw [if_pos (by norm_num)]
    norm_num
  case BounceInOut =>
    unfold getEasedValue easeBounceInOut easeBounceIn
    rw [if_pos (by norm_num)]
    norm_num [easeBounceOut_one]

/-- Every easing curve maps progress 1 to exactly 1. -/
theorem getEased_one (func : EasingFunction) : getEasedValue func 1 = 1 := by
  cases func
  case Linear => simp [getEasedValue, easeLinear]
  case SineInOut =>
    unfold getEasedValue easeSineInOut
    rw [mul_one, Real.cos_pi]
    norm_num
  case QuadInOut =>
    unfold getEasedValue easeQuadInOut
    rw [if_neg (by norm_num)]
    norm_num
  case CubicInOut =>
    unfold getEasedValue easeCubicInOut
    rw [if_neg (by norm_num)]
    norm_num
  case QuartInOut =>
    unfold getEasedValue easeQuartInOut
    simp only []
    rw [if_neg (by norm_num)]
    norm_num
  case QuintInOut =>
    unfold getEasedValue easeQuintInOut
    simp only []
    rw [if_neg (by norm_num)]
    norm_num
  case CircInOut =>
    unfold getEasedValue easeCircInOut
    simp only []
    rw [if_neg (by norm_num)]
    norm_num [Real.sqrt_one]
  case ElasticInOut =>
    unfold getEasedValue easeElasticInOut
    rw [if_pos (Or.inr rfl)]
  case BackInOut =>
    unfold getEasedValue easeBackInOut
    simp only []
    rw [if_neg (by norm_num)]
    norm_num
  case BounceInOut =>
    unfold getEasedValue easeBounceInOut
    rw [if_neg (by norm_num)]
    norm_num [easeBounceOut_one]

/-- Linear easing of an exactly-represented progress stays exact. -/
theorem getEased_linear_cast (q : ℚ) :
    getEasedValue EasingFunction.Linear (q : ℝ) = ((q : ℚ) : ℝ) := rfl

end Easing

namespace Spotlight

open ColorSpace Easing

/-- Evaluation rule: a fixed-transition poll still in progress, under Linear
    easing, emits the exact rational blend. -/
theorem update_fixed_blend_linear (s : State) (now rng : ℕ)
    (h1 : s.isTransitioning = true)
    (h2 : ¬ (1:ℚ) ≤ fixedProgress s now)
    (h3 : s.fixedTransitionEasing = EasingFunction.Linear) :
    update s now rng =
      ({ s with currentRGB := lchToRgb (s.fixedStartLCH +
          (s.fixedEndLCH - s.fixedStartLCH) * fixedProgress s now) },
       some (lchToRgb (s.fixedStartLCH +
          (s.fixedEndLCH - s.fixedStartLCH) * fixedProgress s now))) := by
  unfold update
  rw [h1, h3]
  simp only [eq_self_iff_true, ite_true, if_neg h2, getEased_linear_cast, blend_toR_cast,
    lchToRgbR_toR]

/-- Evaluation rule: a cycle-blend poll still in progress, under Linear
    easing, emits the exact rational blend. -/
theorem update_cycle_blend_linear (s : State) (now rng : ℕ)
    (h1 : s.isTransitioning = false)
    (h2 : s.isAnimating = true)
    (h3 : ¬ (0:ℚ) < s.rotationPeriod)
    (h4 : 0 < s.colorCycleCount)
    (h5 : ¬ s.transitionDuration * 1000 ≤ ((now - s.animationStartTime : ℕ) : ℚ))
    (h6 : s.currentEasing = EasingFunction.Linear) :
    update s now rng =
      ({ s with currentRGB := lchToRgb (s.startLCH +
          (cycleTarget s - s.startLCH) * cycleProgress s now) },
       some (lchToRgb (s.startLCH +
          (cycleTarget s - s.startLCH) * cycleProgress s now))) := by
  unfold update
  rw [h1, h2, h6]
  simp only [Bool.false_eq_true, ite_false, eq_self_iff_true, ite_true, if_neg h3, if_pos h4,
    if_neg h5, getEased_linear_cast, blend_toR_cast, lchToRgbR_toR]

theorem drawNewIndex_lt (rng count current : ℕ) (h : 1 < count) :
    drawNewIndex rng count current < count := by
  have hk : rng % (count - 1) < count - 1 := Nat.mod_lt _ (by omega)
  by_cases hc : rng % (count - 1) < current <;> simp [drawNewIndex, hc] <;> omega

theorem drawNewIndex_ne (rng count current : ℕ) :
    drawNewIndex rng count current ≠ current := by
  by_cases hc : rng % (count - 1) < current <;> simp [drawNewIndex, hc] <;> omega

theorem swapL_length (l : List LCH) (i j : ℕ) : (swapL l i j).length = l.length := by
  unfold swapL
  rw [List.length_set, List.length_set]

theorem foldl_length_invariant (f : List LCH → ℕ → List LCH)
    (hf : ∀ acc i, (f acc i).length = acc.length) :
    ∀ (L : List ℕ) (acc : List LCH), (L.foldl f acc).length = acc.length := by
  intro L
  induction L with
  | nil => intro acc; rfl
  | cons i L ih => intro acc; rw [List.foldl_cons, ih, hf]

theorem shuffleFY_length (l : List LCH) (rng : ℕ → ℕ) :
    (shuffleFY l rng).length = l.length := by
  unfold shuffleFY
  refine foldl_length_invariant _ ?_ _ l
  intro acc i
  show (if i = i + rng i % (l.length - i) then acc
        else swapL acc i (i + rng i % (l.length - i))).length = acc.length
  by_cases hij : i = i + rng i % (l.length - i)
  · rw [if_pos hij]
  · rw [if_neg hij, swapL_length]

end Spotlight

open ColorSpace Easing Spotlight

/-- C6: for every one of the ten easing curves, `evaluate(curve, 0)` returns
    exactly 0 and `evaluate(curve, 1)` returns exactly 1, including
    ElasticInOut and BackInOut. -/
theorem claimC6_easing_boundary :
    ∀ func : EasingFunction, getEasedValue func 0 = 0 ∧ getEasedValue func 1 = 1 :=
  fun func => ⟨getEased_zero func, getEased_one func⟩

/-- C8 (evaluation): the LCH round trip is exact on the pure primaries,
    white, black and mid-gray, but on the representative sample (50, 0, 0)
    it returns (152, 0, 0) — the red channel is off by 102, far beyond the
    claimed 1 unit of rounding error.  (`rgbToLch` stores the HSL
    saturation in the field its own documentation calls chroma, while
    `lchToRgb` divides that field by 2l as a true chroma would require.) -/
theorem claimC8_roundtrip_eval :
    (lchToRgb (rgbToLch ⟨255, 0, 0⟩) = ⟨255, 0, 0⟩ ∧
     lchToRgb (rgbToLch ⟨0, 255, 0⟩) = ⟨0, 255, 0⟩ ∧
     lchToRgb (rgbToLch ⟨0, 0, 255⟩) = ⟨0, 0, 255⟩ ∧
     lchToRgb (rgbToLch ⟨255, 255, 255⟩) = ⟨255, 255, 255⟩ ∧
     lchToRgb (rgbToLch ⟨0, 0, 0⟩) = ⟨0, 0, 0⟩ ∧
     lchToRgb (rgbToLch ⟨128, 128, 128⟩) = ⟨128, 128, 128⟩) ∧
    lchToRgb (rgbToLch ⟨50, 0, 0⟩) = ⟨152, 0, 0⟩ ∧ 50 + 1 < 152 := by
  with_unfolding_all decide

/-- C9: enabling the cycle mode with an empty color list leaves the engine
    idle — no mode flag is active afterwards and a subsequent poll writes
    nothing and changes nothing. -/
theorem claimC9_empty_cycle_noop :
    ∀ (s : State) (rand : Bool) (now : ℕ) (rng : ℕ → ℕ) (now2 rng2 : ℕ),
      (enableColorCycleMode s [] rand now rng).colorCycleCount = 0 ∧
      (enableColorCycleMode s [] rand now rng).isAnimating = false ∧
      (enableColorCycleMode s [] rand now rng).isTransitioning = false ∧
      (enableColorCycleMode s [] rand now rng).rotationPeriod = 0 ∧
      update (enableColorCycleMode s [] rand now rng) now2 rng2 =
        (enableColorCycleMode s [] rand now rng, none) := by
  intro s rand now rng now2 rng2
  have hs2 : enableColorCycleMode s [] rand now rng =
      { stopAllAnimations s with colorCycleCount := 0, isRandom := rand,
                                 colorCycleList := [] } := by
    unfold enableColorCycleMode
    simp [MAX_COLORS]
  rw [hs2]
  refine ⟨rfl, rfl, rfl, rfl, ?_⟩
  unfold update stopAllAnimations
  simp

/-- C5 (counterexample): in the 3-color red/green/blue cycle with duration
    1 s, the poll at elapsed 0.5 s emits color[0] (red) again — not the
    claimed blended midpoint toward color[1], which would be (255, 255, 0).
    The first leg blends color[0] toward itself because
    `enableColorCycleMode` sets `_startLCH = _colorCycleList[0]` and leaves
    the target index at 0. -/
theorem claimC5_counterexample :
    update sCyc0 0 0 = (sCyc1, some ⟨255, 0, 0⟩) ∧
    (update sCyc1 500 0).2 = some ⟨255, 0, 0⟩ ∧
    lchToRgb (rgbToLch ⟨255, 0, 0⟩ +
      (rgbToLch ⟨0, 255, 0⟩ - rgbToLch ⟨255, 0, 0⟩) * (1/2 : ℚ)) = ⟨255, 255, 0⟩ ∧
    (⟨255, 0, 0⟩ : RGB) ≠ (⟨255, 255, 0⟩ : RGB) := by
  refine ⟨?_, ?_, by with_unfolding_all decide, by decide⟩
  · rw [update_cycle_blend_linear sCyc0 0 0 (by with_unfolding_all decide)
      (by with_unfolding_all decide) (by with_unfolding_all decide)
      (by with_unfolding_all decide) (by with_unfolding_all decide)
      (by with_unfolding_all decide)]
    with_unfolding_all decide
  · rw [update_cycle_blend_linear sCyc1 500 0 (by with_unfolding_all decide)
      (by with_unfolding_all decide) (by with_unfolding_all decide)
      (by with_unfolding_all decide) (by with_unfolding_all decide)
      (by with_unfolding_all decide)]
    with_unfolding_all decide

/-- C5 (amended): the actual schedule of the 3-color non-random cycle with
    duration 1 s, polled at 0, 0.5, 1.0 and 1.5 s: color[0], color[0] again
    (the first leg is a self-blend), then the commit poll at 1.0 s advances
    the index to 1 WITHOUT writing the LEDs, and the poll at 1.5 s emits the
    blended midpoint between color[0] and color[1]. -/
theorem claimC5_amended :
    update sCyc0 0 0 = (sCyc1, some ⟨255, 0, 0⟩) ∧
    update sCyc1 500 0 = (sCyc1, some ⟨255, 0, 0⟩) ∧
    update sCyc1 1000 0 = (sCyc2, none) ∧
    sCyc2.currentColorIndex = 1 ∧
    update sCyc2 1500 0 = ({ sCyc2 with currentRGB := ⟨255, 255, 0⟩ }, some ⟨255, 255, 0⟩) ∧
    (⟨255, 255, 0⟩ : RGB) = lchToRgb (rgbToLch ⟨255, 0, 0⟩ +
      (rgbToLch ⟨0, 255, 0⟩ - rgbToLch ⟨255, 0, 0⟩) * (1/2 : ℚ)) := by
  refine ⟨?_, ?_, by with_unfolding_all decide, by with_unfolding_all decide, ?_,
    by with_unfolding_all decide⟩
  · rw [update_cycle_blend_linear sCyc0 0 0 (by with_unfolding_all decide)
      (by with_unfolding_all decide) (by with_unfolding_all decide)
      (by with_unfolding_all decide) (by with_unfolding_all decide)
      (by with_unfolding_all decide)]
    with_unfolding_all decide
  · rw [update_cycle_blend_linear sCyc1 500 0 (by with_unfolding_all decide)
      (by with_unfolding_all decide) (by with_unfolding_all decide)
      (by with_unfolding_all decide) (by with_unfolding_all decide)
      (by with_unfolding_all decide)]
    with_unfolding_all decide
  · rw [update_cycle_blend_linear sCyc2 1500 0 (by with_unfolding_all decide)
      (by with_unfolding_all decide) (by with_unfolding_all decide)
      (by with_unfolding_all decide) (by with_unfolding_all decide)
      (by with_unfolding_all decide)]
    with_unfolding_all decide

/-- C1 (counterexample): with a negative configured transition duration
    (reachable through `setTransitionDuration(-1)`), the poll at 500 ms
    computes progress t = -1/2, passes it UNCLAMPED to the easing evaluator
    and emits the extrapolated blend (63, 63, 63); clamping t to [0, 1] as
    the claim states would emit the start color (127, 127, 127). -/
theorem claimC1_counterexample :
    fixedProgress sNeg 500 < 0 ∧
    (update sNeg 500 0).2 = some ⟨63, 63, 63⟩ ∧
    lchToRgb (sNeg.fixedStartLCH + (sNeg.fixedEndLCH - sNeg.fixedStartLCH) *
      clamp01 (fixedProgress sNeg 500)) = ⟨127, 127, 127⟩ ∧
    (⟨63, 63, 63⟩ : RGB) ≠ (⟨127, 127, 127⟩ : RGB) := by
  refine ⟨by with_unfolding_all decide, ?_, by with_unfolding_all decide, by decide⟩
  rw [update_fixed_blend_linear sNeg 500 0 (by with_unfolding_all decide)
    (by with_unfolding_all decide) (by with_unfolding_all decide)]
  with_unfolding_all decide

/-- C1 (amended): whenever the configured duration is strictly positive, the
    progress that determines the emitted color of a fixed-transition poll is
    `min 1 t`, which lies in [0, 1] (at `t ≥ 1` the emission is exactly the
    target because every easing curve maps 1 to 1); a cycle-blend poll only
    emits while its raw progress lies in [0, 1). -/
theorem claimC1_amended :
    (∀ (s : State) (now rng : ℕ), s.isTransitioning = true →
      0 < s.fixedTransitionDuration →
      ((0:ℚ) ≤ min 1 (fixedProgress s now) ∧ min 1 (fixedProgress s now) ≤ 1) ∧
      (update s now rng).2 = some (lchToRgbR (LCHr.blend s.fixedStartLCH.toR
        s.fixedEndLCH.toR (getEasedValue s.fixedTransitionEasing
          ((min 1 (fixedProgress s now) : ℚ) : ℝ))))) ∧
    (∀ (s : State) (now rng : ℕ), s.isTransitioning = false → s.isAnimating = true →
      ¬ (0:ℚ) < s.rotationPeriod → 0 < s.colorCycleCount →
      ¬ s.transitionDuration * 1000 ≤ ((now - s.animationStartTime : ℕ) : ℚ) →
      ((0:ℚ) ≤ cycleProgress s now ∧ cycleProgress s now < 1) ∧
      (update s now rng).2 = some (lchToRgbR (LCHr.blend s.startLCH.toR
        (cycleTarget s).toR (getEasedValue s.currentEasing
          ((cycleProgress s now : ℚ) : ℝ))))) := by
  constructor
  · intro s now rng h1 h2
    have hD : (0:ℚ) < s.fixedTransitionDuration * 1000 := mul_pos h2 (by norm_num)
    have ht0 : (0:ℚ) ≤ fixedProgress s now := by
      unfold fixedProgress
      exact div_nonneg (Nat.cast_nonneg _) (le_of_lt hD)
    by_cases hc : (1:ℚ) ≤ fixedProgress s now
    · have hmin : min 1 (fixedProgress s now) = 1 := min_eq_left hc
      refine ⟨⟨by rw [hmin]; norm_num, min_le_left _ _⟩, ?_⟩
      unfold update
      rw [h1]
      simp only [eq_self_iff_true, ite_true, if_pos hc]
      rw [hmin, Rat.cast_one, getEased_one, blend_toR_one, lchToRgbR_toR]
    · have hmin : min 1 (fixedProgress s now) = fixedProgress s now :=
        min_eq_right (le_of_lt (lt_of_not_ge hc))
      refine ⟨⟨by rw [hmin]; exact ht0, min_le_left _ _⟩, ?_⟩
      unfold update
      rw [h1]
      simp only [eq_self_iff_true, ite_true, if_neg hc]
      rw [hmin]
  · intro s now rng h1 h2 h3 h4 h5
    have hlt : ((now - s.animationStartTime : ℕ) : ℚ) < s.transitionDuration * 1000 :=
      lt_of_not_ge h5
    have hD : (0:ℚ) < s.transitionDuration * 1000 :=
      lt_of_le_of_lt (Nat.cast_nonneg _) hlt
    refine ⟨⟨div_nonneg (Nat.cast_nonneg _) (le_of_lt hD), (div_lt_one hD).mpr hlt⟩, ?_⟩
    unfold update
    rw [h1, h2]
    simp only [Bool.false_eq_true, ite_false, eq_self_iff_true, ite_true, if_neg h3,
      if_pos h4, if_neg h5]

/-- C1 (witness): the amended statement applied to a freshly armed fixed
    transition with the constructor's positive default duration, polled at
    100 ms. -/
theorem claimC1_witness :
    ((0:ℚ) ≤ min 1 (fixedProgress c1WitState 100) ∧ min 1 (fixedProgress c1WitState 100) ≤ 1) ∧
    (update c1WitState 100 0).2 = some (lchToRgbR (LCHr.blend c1WitState.fixedStartLCH.toR
      c1WitState.fixedEndLCH.toR (getEasedValue c1WitState.fixedTransitionEasing
        ((min 1 (fixedProgress c1WitState 100) : ℚ) : ℝ)))) :=
  claimC1_amended.1 c1WitState 100 0 (by with_unfolding_all decide)
    (by with_unfolding_all decide)

/-- C2 (counterexample): a fixed transition configured with duration -1 s is
    NOT treated as complete: the poll at 100 ms still reports an active
    transition and emits the extrapolated blend (114, 114, 114) instead of
    the target color. -/
theorem claimC2_counterexample :
    sNeg.fixedTransitionDuration < 0 ∧
    update sNeg 100 0 = ({ sNeg with currentRGB := ⟨114, 114, 114⟩ }, some ⟨114, 114, 114⟩) ∧
    (update sNeg 100 0).1.isTransitioning = true ∧
    (⟨114, 114, 114⟩ : RGB) ≠ lchToRgb sNeg.fixedEndLCH := by
  have h := update_fixed_blend_linear sNeg 100 0 (by with_unfolding_all decide)
    (by with_unfolding_all decide) (by with_unfolding_all decide)
  refine ⟨by with_unfolding_all decide, ?_, ?_, by with_unfolding_all decide⟩
  · rw [h]
    with_unfolding_all decide
  · rw [h]
    with_unfolding_all decide

/-- C2 (amended): a cycle leg with non-positive duration does complete
    instantly — the very next poll takes the commit branch, advancing the
    index and resetting the timing anchor, but writes NOTHING to the LEDs;
    a fixed transition with negative duration never completes: every poll
    leaves `_isTransitioning` set and emits the extrapolated blend at the
    negative raw progress.  (A fixed transition with duration exactly zero
    divides by zero in float, outside this exact-arithmetic model.) -/
theorem claimC2_amended :
    (∀ (s : State) (now rng : ℕ), s.isTransitioning = false → s.isAnimating = true →
      ¬ (0:ℚ) < s.rotationPeriod → 0 < s.colorCycleCount →
      s.transitionDuration ≤ 0 →
      update s now rng =
        ({ s with
             startLCH := cycleTarget s,
             currentColorIndex := (if 1 < s.colorCycleCount ∧ s.isRandom
               then drawNewIndex rng s.colorCycleCount s.currentColorIndex
               else (s.currentColorIndex + 1) % s.colorCycleCount),
             animationStartTime := now }, none)) ∧
    (∀ (s : State) (now rng : ℕ), s.isTransitioning = true →
      s.fixedTransitionDuration < 0 →
      (update s now rng).1.isTransitioning = true ∧
      (update s now rng).2 = some (lchToRgbR (LCHr.blend s.fixedStartLCH.toR
        s.fixedEndLCH.toR (getEasedValue s.fixedTransitionEasing
          ((fixedProgress s now : ℚ) : ℝ))))) := by
  constructor
  · intro s now rng h1 h2 h3 h4 h5
    have hc : s.transitionDuration * 1000 ≤ ((now - s.animationStartTime : ℕ) : ℚ) := by
      have hmul : s.transitionDuration * 1000 ≤ 0 := by nlinarith
      exact le_trans hmul (Nat.cast_nonneg _)
    unfold update
    rw [h1, h2]
    simp only [Bool.false_eq_true, ite_false, eq_self_iff_true, ite_true, if_neg h3,
      if_pos h4, if_pos hc]
  · intro s now rng h1 h2
    have hD : s.fixedTransitionDuration * 1000 < 0 := by nlinarith
    have ht : fixedProgress s now ≤ 0 := by
      unfold fixedProgress
      exact div_nonpos_iff.mpr (Or.inl ⟨Nat.cast_nonneg _, le_of_lt hD⟩)
    have hc : ¬ (1:ℚ) ≤ fixedProgress s now := not_le.mpr (lt_of_le_of_lt ht (by norm_num))
    unfold update
    rw [h1]
    simp only [eq_self_iff_true, ite_true, if_neg hc]
    exact ⟨trivial, trivial⟩

/-- C2 (witness): the amended statement applied to a 2-color cycle with
    duration set to 0 (instant commit, no emission) and to the negative-
    duration fixed transition `sNeg` polled at 100 ms. -/
theorem claimC2_witness :
    update sC2 5 0 =
      ({ sC2 with
           startLCH := cycleTarget sC2,
           currentColorIndex := (if 1 < sC2.colorCycleCount ∧ sC2.isRandom
             then drawNewIndex 0 sC2.colorCycleCount sC2.currentColorIndex
             else (sC2.currentColorIndex + 1) % sC2.colorCycleCount),
           animationStartTime := 5 }, none) ∧
    ((update sNeg 100 0).1.isTransitioning = true ∧
     (update sNeg 100 0).2 = some (lchToRgbR (LCHr.blend sNeg.fixedStartLCH.toR
       sNeg.fixedEndLCH.toR (getEasedValue sNeg.fixedTransitionEasing
         ((fixedProgress sNeg 100 : ℚ) : ℝ))))) :=
  ⟨claimC2_amended.1 sC2 5 0 (by with_unfolding_all decide) (by with_unfolding_all decide)
      (by with_unfolding_all decide) (by with_unfolding_all decide)
      (by with_unfolding_all decide),
   claimC2_amended.2 sNeg 100 0 (by with_unfolding_all decide)
      (by with_unfolding_all decide)⟩

/-- C4: calling `setRGB` at the moment of a wheel-mode poll starts the fixed
    transition from the wheel's instantaneous color at that moment (hue
    rotated by elapsed/period, with the engine's stored saturation/value) —
    concretely, 2.5 s into a 10 s rotation started from hue 20 the captured
    start is the LCH of (42, 255, 0), which is neither black nor the color
    of the wheel's nominal start hue. -/
theorem claimC4_start_from_displayed :
    (∀ (s : State) (now r g b rng : ℕ), s.isTransitioning = false → s.isAnimating = true →
      (0:ℚ) < s.rotationPeriod →
      (setRGB (update s now rng).1 r g b now).fixedStartLCH =
        rgbToLch (hsvToRgb (wheelHueAt s now) s.saturation s.value)) ∧
    ((setRGB (update sWheel 2500 0).1 9 9 9 2500).fixedStartLCH = rgbToLch ⟨42, 255, 0⟩ ∧
     rgbToLch ⟨42, 255, 0⟩ ≠ rgbToLch ⟨0, 0, 0⟩ ∧
     rgbToLch ⟨42, 255, 0⟩ ≠ rgbToLch (hsvToRgb sWheel.startHue sWheel.saturation sWheel.value)) := by
  constructor
  · intro s now r g b rng h1 h2 h3
    have hupd : (update s now rng).1 =
        { s with currentHue := wheelHueAt s now,
                 currentRGB := hsvToRgb (wheelHueAt s now) s.saturation s.value } := by
      unfold update
      rw [h1, h2]
      simp only [Bool.false_eq_true, ite_false, eq_self_iff_true, ite_true, if_pos h3]
    rw [hupd]
    unfold setRGB getCurrentRGB
    simp only [h1, Bool.false_eq_true, ite_false, if_pos h3]
  · refine ⟨by with_unfolding_all decide, by with_unfolding_all decide,
      by with_unfolding_all decide⟩

/-- C4 (witness): the general statement applied to the concrete wheel run
    `sWheel` polled and interrupted at 2500 ms. -/
theorem claimC4_witness :
    (setRGB (update sWheel 2500 0).1 9 9 9 2500).fixedStartLCH =
      rgbToLch (hsvToRgb (wheelHueAt sWheel 2500) sWheel.saturation sWheel.value) :=
  claimC4_start_from_displayed.1 sWheel 2500 9 9 9 0 (by with_unfolding_all decide)
    (by with_unfolding_all decide) (by with_unfolding_all decide)

/-- C7 (evaluation at the failing input): the engine displays (201, 99, 48)
    — HSV (20, 51/67, 67/85) — when wheel mode starts with a 10 s clockwise
    period; the poll at 2500 ms emits the hue rotated by 90° as claimed, but
    with saturation and value 1 (the constructor's values, never overwritten
    by the sample): (42, 255, 0) instead of the claimed
    `hsvToRgb(110, 51/67, 67/85) = (73, 201, 48)`.  At 15000 ms the hue is
    20 + 180, confirming the 180°-rotation part of the claim. -/
theorem claimC7_wheel_eval :
    rgbToHsv ⟨201, 99, 48⟩ = (20, 51/67, 67/85) ∧
    sWheel.startHue = 20 ∧ sWheel.saturation = 1 ∧ sWheel.value = 1 ∧
    wheelHueAt sWheel 2500 = 110 ∧
    (update sWheel 2500 0).2 = some (hsvToRgb (wheelHueAt sWheel 2500) 1 1) ∧
    (update sWheel 2500 0).2 = some ⟨42, 255, 0⟩ ∧
    hsvToRgb (wheelHueAt sWheel 2500) (51/67) (67/85) = ⟨73, 201, 48⟩ ∧
    (⟨42, 255, 0⟩ : RGB) ≠ (⟨73, 201, 48⟩ : RGB) ∧
    wheelHueAt sWheel 15000 = 20 + 180 := by
  refine ⟨by with_unfolding_all decide, by with_unfolding_all decide,
    by with_unfolding_all decide, by with_unfolding_all decide,
    by with_unfolding_all decide, by with_unfolding_all decide,
    by with_unfolding_all decide, by with_unfolding_all decide,
    by decide, by with_unfolding_all decide⟩

/-- A poll never changes the wheel period or the cycle count, and can only
    clear (never set) the transitioning flag. -/
theorem update_flag_facts (s : State) (now rng : ℕ) :
    (update s now rng).1.rotationPeriod = s.rotationPeriod ∧
    (update s now rng).1.colorCycleCount = s.colorCycleCount ∧
    ((update s now rng).1.isTransitioning = true → s.isTransitioning = true) := by
  by_cases c1 : s.isTransitioning = true
  · by_cases c2 : (1:ℚ) ≤ fixedProgress s now
    · simp [update, c1, c2]
    · simp [update, c1, c2]
  · by_cases c3 : s.isAnimating = true
    · by_cases c4 : (0:ℚ) < s.rotationPeriod
      · simp [update, c1, c3, c4]
      · by_cases c5 : 0 < s.colorCycleCount
        · by_cases c6 : s.transitionDuration * 1000 ≤ ((now - s.animationStartTime : ℕ) : ℚ)
          · simp [update, c1, c3, c4, c5, c6]
          · simp [update, c1, c3, c4, c5, c6]
        · simp [update, c1, c3, c4, c5]
    · simp [update, c1, c3]

/-- C3: at most one of Transitioning-to-Fixed, Wheel and Cycle is ever
    active: the invariant holds at construction, is preserved by every poll,
    and every mode-setter unconditionally cancels the other two modes
    (via `stopAllAnimations`) before arming its own. -/
theorem claimC3_mode_exclusive :
    ModeExclusive initState ∧
    (∀ (s : State) (now rng : ℕ), ModeExclusive s → ModeExclusive (update s now rng).1) ∧
    (∀ (s : State) (r g b now : ℕ),
      (setRGB s r g b now).isTransitioning = true ∧
      (setRGB s r g b now).rotationPeriod = 0 ∧
      (setRGB s r g b now).colorCycleCount = 0 ∧ ModeExclusive (setRGB s r g b now)) ∧
    (∀ (s : State) (k br : ℚ),
      (setColorTemperature s k br).isTransitioning = false ∧
      (setColorTemperature s k br).rotationPeriod = 0 ∧
      (setColorTemperature s k br).colorCycleCount = 0 ∧
      ModeExclusive (setColorTemperature s k br)) ∧
    (∀ (s : State) (p : ℚ) (d : RotationDirection) (now : ℕ),
      (enableColorWheelMode s p d now).isTransitioning = false ∧
      (enableColorWheelMode s p d now).colorCycleCount = 0 ∧
      ModeExclusive (enableColorWheelMode s p d now)) ∧
    (∀ (s : State) (colors : List RGB) (rand : Bool) (now : ℕ) (rng : ℕ → ℕ),
      (enableColorCycleMode s colors rand now rng).isTransitioning = false ∧
      (enableColorCycleMode s colors rand now rng).rotationPeriod = 0 ∧
      ModeExclusive (enableColorCycleMode s colors rand now rng)) ∧
    (∀ (s : State) (d : ℚ), ModeExclusive s → ModeExclusive (setCycleDuration s d)) ∧
    (∀ (s : State) (e : EasingFunction), ModeExclusive s → ModeExclusive (setCycleEasing s e)) ∧
    (∀ (s : State) (d : ℚ), ModeExclusive s → ModeExclusive (setTransitionDuration s d)) ∧
    (∀ (s : State) (e : EasingFunction), ModeExclusive s → ModeExclusive (setTransitionEasing s e)) := by
  refine ⟨by with_unfolding_all decide, ?_, ?_, ?_, ?_, ?_, ?_, ?_, ?_, ?_⟩
  · intro s now rng h
    obtain ⟨g1, g2, g3⟩ := update_flag_facts s now rng
    obtain ⟨h1, h2, h3⟩ := h
    refine ⟨?_, ?_, ?_⟩
    · intro ht
      obtain ⟨ha, hb⟩ := h1 (g3 ht)
      rw [g1, g2]
      exact ⟨ha, hb⟩
    · intro hw
      rw [g1] at hw
      obtain ⟨ha, hb⟩ := h2 hw
      refine ⟨?_, by rw [g2]; exact hb⟩
      cases hb2 : (update s now rng).1.isTransitioning
      · rfl
      · have hs := g3 hb2
        rw [ha] at hs
        exact absurd hs (by decide)
    · intro hc
      rw [g2] at hc
      obtain ⟨ha, hb⟩ := h3 hc
      refine ⟨?_, by rw [g1]; exact hb⟩
      cases hb2 : (update s now rng).1.isTransitioning
      · rfl
      · have hs := g3 hb2
        rw [ha] at hs
        exact absurd hs (by decide)
  · intro s r g b now
    exact ⟨rfl, rfl, rfl, fun _ => ⟨le_refl 0, rfl⟩,
      fun hw => absurd hw (lt_irrefl 0), fun hc => absurd hc (lt_irrefl 0)⟩
  · intro s k br
    exact ⟨rfl, rfl, rfl, fun ht => Bool.noConfusion ht,
      fun hw => absurd hw (lt_irrefl 0), fun hc => absurd hc (lt_irrefl 0)⟩
  · intro s p d now
    exact ⟨rfl, rfl, fun ht => Bool.noConfusion ht,
      fun _ => ⟨rfl, rfl⟩, fun hc => absurd hc (lt_irrefl 0)⟩
  · intro s colors rand now rng
    unfold enableColorCycleMode
    dsimp only
    split
    · exact ⟨rfl, rfl, fun ht => Bool.noConfusion ht,
        fun hw => absurd hw (lt_irrefl 0), fun _ => ⟨rfl, le_refl 0⟩⟩
    · exact ⟨rfl, rfl, fun ht => Bool.noConfusion ht,
        fun hw => absurd hw (lt_irrefl 0), fun _ => ⟨rfl, le_refl 0⟩⟩
  · intro s d h
    exact h
  · intro s e h
    exact h
  · intro s d h
    exact h
  · intro s e h
    exact h

/-- C3 (witness): the invariant-preservation conjuncts applied to the fresh
    engine. -/
theorem claimC3_witness :
    ModeExclusive (update initState 5 0).1 ∧ ModeExclusive (setCycleDuration initState 3) :=
  ⟨claimC3_mode_exclusive.2.1 initState 5 0 (by with_unfolding_all decide),
   claimC3_mode_exclusive.2.2.2.2.2.2.1 initState 3 (by with_unfolding_all decide)⟩

/-- A poll never changes the cycle list or count; it changes the index only
    on the commit branch (which requires an active cycle), to the random
    draw or the sequential successor. -/
theorem update_cycle_fields (s : State) (now rng : ℕ) :
    (update s now rng).1.colorCycleCount = s.colorCycleCount ∧
    (update s now rng).1.colorCycleList = s.colorCycleList ∧
    ((update s now rng).1.currentColorIndex = s.currentColorIndex ∨
      (0 < s.colorCycleCount ∧
       (update s now rng).1.currentColorIndex =
         (if 1 < s.colorCycleCount ∧ s.isRandom = true
          then drawNewIndex rng s.colorCycleCount s.currentColorIndex
          else (s.currentColorIndex + 1) % s.colorCycleCount))) := by
  by_cases c1 : s.isTransitioning = true
  · by_cases c2 : (1:ℚ) ≤ fixedProgress s now
    · simp [update, c1, c2]
    · simp [update, c1, c2]
  · by_cases c3 : s.isAnimating = true
    · by_cases c4 : (0:ℚ) < s.rotationPeriod
      · simp [update, c1, c3, c4]
      · by_cases c5 : 0 < s.colorCycleCount
        · by_cases c6 : s.transitionDuration * 1000 ≤ ((now - s.animationStartTime : ℕ) : ℚ)
          · refine ⟨by simp [update, c1, c3, c4, c5, c6], by simp [update, c1, c3, c4, c5, c6], Or.inr ⟨c5, ?_⟩⟩
            simp [update, c1, c3, c4, c5, c6]
          · simp [update, c1, c3, c4, c5, c6]
        · simp [update, c1, c3, c4, c5]
    · simp [update, c1, c3]

/-- C10: whenever the cycle count is positive the current index is below the
    count (and the count never exceeds the populated list), this is
    established at construction and by `enableColorCycleMode`, preserved by
    every poll (sequential advance via mod, random advance via an in-range
    draw) and by every other public operation, so the list read
    `_colorCycleList[_currentColorIndex]` is always in bounds. -/
theorem claimC10_index_in_bounds :
    CycleIndexInv initState ∧
    (∀ (s : State) (now rng : ℕ), CycleIndexInv s → CycleIndexInv (update s now rng).1) ∧
    (∀ (s : State) (colors : List RGB) (rand : Bool) (now : ℕ) (rng : ℕ → ℕ),
      CycleIndexInv (enableColorCycleMode s colors rand now rng)) ∧
    (∀ (s : State) (r g b now : ℕ), CycleIndexInv (setRGB s r g b now)) ∧
    (∀ (s : State) (k br : ℚ), CycleIndexInv (setColorTemperature s k br)) ∧
    (∀ (s : State) (p : ℚ) (d : RotationDirection) (now : ℕ),
      CycleIndexInv (enableColorWheelMode s p d now)) ∧
    (∀ (s : State) (d : ℚ), CycleIndexInv s → CycleIndexInv (setCycleDuration s d)) ∧
    (∀ (s : State) (e : EasingFunction), CycleIndexInv s → CycleIndexInv (setCycleEasing s e)) ∧
    (∀ (s : State) (d : ℚ), CycleIndexInv s → CycleIndexInv (setTransitionDuration s d)) ∧
    (∀ (s : State) (e : EasingFunction), CycleIndexInv s → CycleIndexInv (setTransitionEasing s e)) ∧
    (∀ s : State, CycleIndexInv s → 0 < s.colorCycleCount →
      s.currentColorIndex < s.colorCycleList.length) := by
  have hlen0 : ∀ colors : List RGB,
      (List.map rgbToLch (List.take MAX_COLORS colors)).length = colors.length ⊓ MAX_COLORS := by
    intro colors
    rw [List.length_map, List.length_take, Nat.min_comm]
  refine ⟨by with_unfolding_all decide, ?_, ?_, ?_, ?_, ?_, ?_, ?_, ?_, ?_, ?_⟩
  · intro s now rng h
    obtain ⟨e1, e2, e3⟩ := update_cycle_fields s now rng
    obtain ⟨h1, h2⟩ := h
    refine ⟨by rw [e1, e2]; exact h1, ?_⟩
    rw [e1]
    intro hcnt
    rcases e3 with he | ⟨_, he⟩
    · rw [he]
      exact h2 hcnt
    · rw [he]
      split_ifs with hco
      · exact drawNewIndex_lt rng s.colorCycleCount s.currentColorIndex hco.1
      · exact Nat.mod_lt _ hcnt
  · intro s colors rand now rng
    unfold enableColorCycleMode
    dsimp only
    split_ifs with hc hr
    · exact ⟨by rw [hc]; exact Nat.zero_le _, fun h0 => absurd (hc ▸ h0) (lt_irrefl 0)⟩
    · refine ⟨?_, fun _ => Nat.pos_of_ne_zero hc⟩
      show colors.length ⊓ MAX_COLORS ≤
        (shuffleFY (List.map rgbToLch (List.take MAX_COLORS colors)) rng).length
      rw [shuffleFY_length, hlen0]
    · refine ⟨?_, fun _ => Nat.pos_of_ne_zero hc⟩
      show colors.length ⊓ MAX_COLORS ≤
        (List.map rgbToLch (List.take MAX_COLORS colors)).length
      rw [hlen0]
  · intro s r g b now
    exact ⟨Nat.zero_le _, fun h0 => absurd h0 (lt_irrefl 0)⟩
  · intro s k br
    exact ⟨Nat.zero_le _, fun h0 => absurd h0 (lt_irrefl 0)⟩
  · intro s p d now
    exact ⟨Nat.zero_le _, fun h0 => absurd h0 (lt_irrefl 0)⟩
  · intro s d h
    exact h
  · intro s e h
    exact h
  · intro s d h
    exact h
  · intro s e h
    exact h
  · intro s h h0
    exact lt_of_lt_of_le (h.2 h0) h.1

/-- C10 (witness): the invariant applied to the running 3-color cycle: it is
    preserved by the commit poll, by a duration change, and yields the
    in-bounds fact for the active cycle. -/
theorem claimC10_witness :
    CycleIndexInv (update sCyc1 1000 0).1 ∧
    CycleIndexInv (setCycleDuration sCyc0 3) ∧
    sCyc0.currentColorIndex < sCyc0.colorCycleList.length :=
  ⟨claimC10_index_in_bounds.2.1 sCyc1 1000 0 (by with_unfolding_all decide),
   claimC10_index_in_bounds.2.2.2.2.2.2.1 sCyc0 3 (by with_unfolding_all decide),
   claimC10_index_in_bounds.2.2.2.2.2.2.2.2.2.2 sCyc0 (by with_unfolding_all decide)
     (by with_unfolding_all decide)⟩
